import Mathlib

/-!
Verification development for the Hubitat app deployment script
(deploy_app.py). The Python source is shallowly embedded: every
interaction with the driven browser page is modelled by an explicit
environment record holding the page state together with the outcomes of
the fallible driver calls, and each Python function becomes a pure Lean
function over that environment, paired with the trace of page actions
it performs. Behaviour that Python leaves unspecified (the iteration
order of a set) is modelled by an explicit function parameter
constrained to produce a permutation of its input.
-/

/-- Lower-casing as performed by the Python str.lower calls (ASCII). -/
def lowerS (s : String) : String := (s.data.map Char.toLower).asString

/-- Python substring containment test (the in operator) on char lists. -/
def substrB : List Char → List Char → Bool
  | n, [] => n.isEmpty
  | n, c :: t => List.isPrefixOf n (c :: t) || substrB n t

/-- Python substring containment test (the in operator) on strings. -/
def substrS (n s : String) : Bool := substrB n.data s.data

/-- Python startswith on strings. -/
def startsWithS (s p : String) : Bool := List.isPrefixOf p.data s.data

/-- Whitespace class of the Python str.strip and str.split defaults. -/
def isPySpace (c : Char) : Bool :=
  c = ' ' || c = '\t' || c = '\n' || c = '\r' || c = '\x0b' || c = '\x0c'

/-- Python str.strip with no arguments. -/
def pyStrip (s : String) : String :=
  (((s.data.dropWhile isPySpace).reverse.dropWhile isPySpace).reverse).asString

/-- Splitting a char list at every separator character, keeping empty
pieces, with the same semantics as the Python str.split given an
explicit separator (and as the piecewise split used by str.split with
no arguments before empty pieces are discarded). -/
def splitCharsGo (p : Char → Bool) : List Char → List Char → List String
  | [], cur => [cur.reverse.asString]
  | c :: rest, cur =>
    if p c then cur.reverse.asString :: splitCharsGo p rest []
    else splitCharsGo p rest (c :: cur)

/-- Splitting a string at every character satisfying p, keeping empty
pieces. -/
def splitChars (p : Char → Bool) (s : String) : List String :=
  splitCharsGo p s.data []

/-- Joining string pieces with a separator. -/
def joinWith (sep : String) : List String → String
  | [] => ""
  | [x] => x
  | x :: y :: rest => x ++ sep ++ joinWith sep (y :: rest)

/-- Python whitespace normalisation idiom: one-space join of str.split
with no arguments, as used on scraped error text in deploy_app.py. -/
def normWS (s : String) : String :=
  joinWith " " ((splitChars isPySpace s).filter (fun t => t ≠ ""))

/-- One match produced by the regex scan: start offset, end offset and
the digit capture group. -/
structure MatchInfo where
  mstart : Nat
  mend : Nat
  gid : String
deriving DecidableEq

/-- Attempted match at the head of cs for the literal lit followed by one
or more digits, mirroring a single position attempt of the Python regex
patterns built around the editor path. Returns the matched length and
the digit group. -/
def litMatch (lit cs : List Char) : Option (Nat × String) :=
  if List.isPrefixOf lit cs then
    if ((cs.drop lit.length).takeWhile Char.isDigit).isEmpty then none
    else some (lit.length + ((cs.drop lit.length).takeWhile Char.isDigit).length,
               ((cs.drop lit.length).takeWhile Char.isDigit).asString)
  else none

/-- Left-to-right non-overlapping scan mirroring re.finditer: at each
position attempt litMatch; on success emit the match and resume after
its end (the skip counter carries the remaining length of the current
match while the recursion advances one character at a time). -/
def finditerGo (lit : List Char) : List Char → Nat → Nat → List MatchInfo
  | [], _, _ => []
  | _ :: rest, pos, sk + 1 => finditerGo lit rest (pos + 1) sk
  | c :: rest, pos, 0 =>
    match litMatch lit (c :: rest) with
    | some r => ⟨pos, pos + r.1, r.2⟩ :: finditerGo lit rest (pos + 1) (r.1 - 1)
    | none => finditerGo lit rest (pos + 1) 0

/-- All matches of lit followed by digits in cs, leftmost first,
non-overlapping, as produced by re.finditer. -/
def finditerIds (lit : List Char) (cs : List Char) : List MatchInfo :=
  finditerGo lit cs 0 0

/-- The literal part of the editor link pattern for a component type,
as interpolated into the regex in find_editor_id. -/
def editorLit (ct : String) : List Char := ("/" ++ ct ++ "/editor/").data

/-- One element returned by the page query for anchors, table rows and
cells in find_editor_id: the inner text (when the handle exposes one)
and the href attribute (absent when get_attribute returns None). -/
structure LElem where
  hasInner : Bool
  innerTxt : String
  hrefAttr : Option String
deriving DecidableEq

/-- Environment of one find_editor_id call: the outcomes of the three
fallible page operations (navigation, content retrieval, element query)
and the static page data they would yield. -/
structure FindEnv where
  gotoErr : Option String
  contentErr : Option String
  queryErr : Option String
  loginShown : Bool
  pageContent : String
  elems : List LElem
deriving DecidableEq

/-- The 200-character context window sliced around a match in
find_editor_id, with the Python max and min clamping. -/
def ctxWindow (content : String) (m : MatchInfo) : String :=
  ((content.data.drop (m.mstart - 200)).take
    (min content.length (m.mend + 200) - (m.mstart - 200))).asString

/-- Transliteration of the first for loop of find_editor_id: walk the
regex matches and return the first editor id whose context window
contains the searched name case-insensitively. -/
def firstLoop (name content : String) : List MatchInfo → Option String
  | [] => none
  | m :: rest =>
    if substrS (lowerS name) (lowerS (ctxWindow content m)) then some m.gid
    else firstLoop name content rest

/-- Transliteration of re.search for the editor id pattern on an href:
the first match of the editor segment followed by digits. -/
def hrefSearchId (href : String) : Option String :=
  (finditerIds "/editor/".data href.data).head?.map (fun m => m.gid)

/-- Transliteration of the second for loop of find_editor_id over the
queried anchor, row and cell elements. -/
def secondLoop (name ct : String) : List LElem → Option String
  | [] => none
  | el :: rest =>
    if substrS (lowerS name) (lowerS (if el.hasInner then el.innerTxt else ""))
        && substrS ("/" ++ ct ++ "/editor/") (el.hrefAttr.getD "") then
      match hrefSearchId (el.hrefAttr.getD "") with
      | some g => some g
      | none => secondLoop name ct rest
    else secondLoop name ct rest

/-- Body of find_editor_id inside its try block: each fallible page
operation either raises (propagating as an error here) or yields the
page data, after which the two search loops run in order. -/
def findBody (env : FindEnv) (name ct : String) : Except String (Option String) :=
  match env.gotoErr with
  | some e => .error e
  | none =>
    match env.contentErr with
    | some e => .error e
    | none =>
      match firstLoop name env.pageContent (finditerIds (editorLit ct) env.pageContent.data) with
      | some g => .ok (some g)
      | none =>
        match env.queryErr with
        | some e => .error e
        | none =>
          match secondLoop name ct env.elems with
          | some g => .ok (some g)
          | none => .ok none

/-- find_editor_id: the body guarded by the catch-all except clause that
prints the failure and returns None. -/
def findEditorId (env : FindEnv) (name ct : String) : Option String :=
  match findBody env name ct with
  | .error _ => none
  | .ok r => r

/-- Strategy (a) as the specification words it: regex-match editor-link
identifiers and accept the first whose surrounding text window contains
the name, case-insensitively. -/
def stratA (name ct content : String) : Option String :=
  (finditerIds (editorLit ct) content.data).findSome? (fun m =>
    if substrS (lowerS name) (lowerS (ctxWindow content m)) then some m.gid else none)

/-- Strategy (b) as the specification words it: scan anchor, row and
cell elements whose visible text contains the name and whose link
target matches the editor-link pattern, returning the first identifier
extracted from such a link. -/
def stratB (name ct : String) (els : List LElem) : Option String :=
  els.findSome? (fun el =>
    if substrS (lowerS name) (lowerS (if el.hasInner then el.innerTxt else ""))
        && substrS ("/" ++ ct ++ "/editor/") (el.hrefAttr.getD "") then
      hrefSearchId (el.hrefAttr.getD "")
    else none)

/-- A CodeMirror instance as the injection script observes it: whether
it exposes a trigger method and whether getTextArea returns an
underlying textarea element. -/
structure CMInst where
  hasTrigger : Bool
  hasTextArea : Bool
deriving DecidableEq

/-- A DOM element carrying the CodeMirror container class: the script
reads its CodeMirror property and its cm property. -/
structure CMElem where
  cmMain : Option CMInst
  cmAlt : Option CMInst
deriving DecidableEq

/-- The static page state the injection script runs against: the
elements matching the CodeMirror container selector in document order,
the truthiness of the global window.CodeMirror, and whether
document.querySelector for a textarea finds one. -/
structure JSPage where
  cmElems : List CMElem
  windowCM : Bool
  taPresent : Bool
deriving DecidableEq

/-- Helper of the injection script: the loop over all container
elements picking the first with an attached CodeMirror property. -/
def firstCMAttached : List CMElem → Option CMInst
  | [] => none
  | e :: rest =>
    match e.cmMain with
    | some cm => some cm
    | none => firstCMAttached rest

/-- Resolution of the CodeMirror instance exactly as the injected
script attempts it: the CodeMirror property of the first container,
then the cm property guarded by window.CodeMirror, then the scan over
all containers. The empty-container case resolves to nothing. -/
def resolveCM (p : JSPage) : Option CMInst :=
  match p.cmElems with
  | [] => none
  | el :: _ =>
    match el.cmMain with
    | some cm => some cm
    | none =>
      if p.windowCM && el.cmAlt.isSome then el.cmAlt
      else firstCMAttached p.cmElems

/-- Method tag of a successful injection, mirroring the method field of
the object the injected script returns. -/
inductive InjMethod where
  | cmMethod
  | taMethod
deriving DecidableEq

/-- Result object of the injected script. -/
structure JSRes where
  ok : Bool
  method : Option InjMethod
  err : Option String
deriving DecidableEq

/-- Observable steps of one deploy run, used to state which operations
a given execution performs and in which order. -/
inductive DeployAct where
  | browserLaunch
  | ctxCreate
  | pageCreate
  | gotoPage
  | cmSetValue
  | cmTriggerChange
  | taSetValue
  | dispatchEvent (nm : String)
  | fillTextarea
  | waitEnabled
  | normalClick
  | jsClickAttempt
  | scrapeDone (errs : List String)
  | browserClose
  | refocusCursor
  | pwStop
deriving DecidableEq

/-- The page.evaluate injection script of deploy_app: locate the
container, resolve the instance, and either set the value through the
CodeMirror API (triggering change if available and dispatching input,
change and keyup on the underlying textarea if one is exposed) or fall
back to writing the raw textarea and dispatching input and change on
it. Returns the result object plus the performed page actions. -/
def jsInject (p : JSPage) : JSRes × List DeployAct :=
  if p.cmElems.isEmpty then
    (⟨false, none, some "CodeMirror element not found"⟩, [])
  else
    match resolveCM p with
    | none =>
      if p.taPresent then
        (⟨true, some InjMethod.taMethod, none⟩,
         [DeployAct.taSetValue, DeployAct.dispatchEvent "input", DeployAct.dispatchEvent "change"])
      else (⟨false, none, some "CodeMirror instance not found"⟩, [])
    | some cm =>
      (⟨true, some InjMethod.cmMethod, none⟩,
       [DeployAct.cmSetValue]
         ++ (if cm.hasTrigger then [DeployAct.cmTriggerChange] else [])
         ++ (if cm.hasTextArea then
               [DeployAct.dispatchEvent "input", DeployAct.dispatchEvent "change",
                DeployAct.dispatchEvent "keyup"]
             else []))

/-- One element examined by the save-button selector loop: whether the
handle exposes inner_text, that text, the value and onclick attributes,
and the behaviour of the subsequent interactions with it (whether the
enabled wait succeeds, whether the normal click succeeds, and whether
the script-level click succeeds). -/
structure BtnElem where
  hasInner : Bool
  innerTxt : String
  valAttr : Option String
  onclickAttr : Option String
  enabledInWait : Bool
  normalClickOk : Bool
  jsClickOk : Bool
deriving DecidableEq

/-- The candidate text of a save-button element: inner_text when
exposed, else the value attribute with None defaulted to the empty
string. -/
def btnText (e : BtnElem) : String :=
  if e.hasInner then e.innerTxt else (e.valAttr.getD "")

/-- The filter of the save-button loop: the visible text contains save,
or the onclick attribute is truthy and contains save. -/
def btnMatchesSave (e : BtnElem) : Bool :=
  substrS "save" (lowerS (btnText e))
    || (match e.onclickAttr with
        | some oc => decide (oc ≠ "") && substrS "save" (lowerS oc)
        | none => false)

/-- The save-button search over the ordered selector list: each entry
is the result of one query_selector_all call (or nothing when that
selector raised and the loop continued); the first matching element of
the first selector producing one is returned. -/
def findSaveButton : List (Option (List BtnElem)) → Option BtnElem
  | [] => none
  | none :: rest => findSaveButton rest
  | some es :: rest =>
    match es.find? btnMatchesSave with
    | some b => some b
    | none => findSaveButton rest

/-- An element returned by one of the warning-banner selectors. -/
structure WarnElem where
  innerTxt : String
deriving DecidableEq

/-- Error vocabulary applied to the text of warning-styled elements. -/
def errPatterns : List String :=
  ["expecting", "found", "@ line", "line ", "column",
   "syntax error", "compilation error", "parse error",
   "unexpected", "token", "cannot", "failed",
   "error", "exception", "invalid"]

/-- Keyword list applied to page text lines that carry a line marker. -/
def lineKeywords : List String :=
  ["expecting", "found", "unexpected", "token",
   "syntax", "error", "exception", "cannot",
   "invalid", "failed", "parse"]

/-- Processing of one warning-styled element: keep its
whitespace-normalised text when the text is non-empty, non-blank,
matches the error vocabulary and was not already collected. -/
def scanWarnElem (acc : List String) (e : WarnElem) : List String :=
  if decide (e.innerTxt ≠ "") && decide (pyStrip e.innerTxt ≠ "") then
    if errPatterns.any (fun p => substrS p (lowerS e.innerTxt)) then
      if normWS e.innerTxt ∈ acc then acc else acc ++ [normWS e.innerTxt]
    else acc
  else acc

/-- Processing of one line of the full page text: keep its
whitespace-normalised form when the lower-cased stripped line carries a
line marker, matches a keyword, is non-empty and was not already
collected. -/
def scanLine (acc : List String) (line : String) : List String :=
  if substrS "@ line" (pyStrip (lowerS line)) || substrS "line " (pyStrip (lowerS line)) then
    if lineKeywords.any (fun k => substrS k (pyStrip (lowerS line))) then
      if decide (normWS line ≠ "") && decide (normWS line ∉ acc) then acc ++ [normWS line]
      else acc
    else acc
  else acc

/-- The fold over the warning selectors: selectors whose query raised
are skipped, the others contribute their elements in order. -/
def scrapeWarn (qs : List (Option (List WarnElem))) (acc : List String) : List String :=
  qs.foldl (fun a q =>
    match q with
    | none => a
    | some es => es.foldl scanWarnElem a) acc

/-- The page-text phase of the scrape: when the innerText evaluation
raised (or produced a falsy empty string) nothing is added, otherwise
every newline-separated line is scanned. -/
def scrapeBodyText (bt : Option String) (acc : List String) : List String :=
  match bt with
  | none => acc
  | some t =>
    if t = "" then acc
    else (splitChars (fun c => c = '\n') t).foldl scanLine acc

/-- Environment of one deploy_app call: the source-file check, the
outcomes of the fallible driver calls (context creation, page creation
and navigation), the static page state for the injection, the
save-button selector results, the warning selector results and the
page body text. -/
structure DeployEnv where
  fileExists : Bool
  ctxErr : Option String
  pageErr : Option String
  gotoErr : Option String
  loginShown : Bool
  page : JSPage
  saveQueries : List (Option (List BtnElem))
  warnQueries : List (Option (List WarnElem))
  bodyText : Option String
deriving DecidableEq

/-- The insertion-ordered, duplicate-free list errors_found built by the
two scrape phases. -/
def errorsFound (env : DeployEnv) : List String :=
  scrapeBodyText env.bodyText (scrapeWarn env.warnQueries [])

/-- The unique_errors value: the Python source pipes errors_found
through list of set, whose iteration order the language does not
specify, so the conversion is a parameter f of the model; a faithful f
returns a permutation of its duplicate-free input (SetOrderOK below). -/
def uniqueErrors (env : DeployEnv) (f : List String → List String) : List String :=
  f (errorsFound env)

/-- Validity of a model of the Python list of set conversion: on a
duplicate-free list it returns some permutation of it. -/
def SetOrderOK (f : List String → List String) : Prop :=
  ∀ l : List String, l.Nodup → List.Perm (f l) l

/-- The save-and-scrape tail of deploy_app: find the save control; if
none, fail; otherwise wait for it to become enabled and click (a click
failure raising out to the top-level handler), or on wait timeout
attempt the script-level click, re-raising only when that also fails;
after a click, scrape and succeed exactly when no errors were found. -/
def saveStage (env : DeployEnv) (f : List String → List String) :
    Except String Bool × List DeployAct :=
  match findSaveButton env.saveQueries with
  | none => (.ok false, [])
  | some b =>
    if b.enabledInWait then
      if b.normalClickOk then
        (.ok (uniqueErrors env f).isEmpty,
         [DeployAct.waitEnabled, DeployAct.normalClick, DeployAct.scrapeDone (uniqueErrors env f)])
      else (.error "click failed", [DeployAct.waitEnabled, DeployAct.normalClick])
    else
      if b.jsClickOk then
        (.ok (uniqueErrors env f).isEmpty,
         [DeployAct.jsClickAttempt, DeployAct.scrapeDone (uniqueErrors env f)])
      else (.error "element state wait timeout", [DeployAct.jsClickAttempt])

/-- The body of the deploy try block: navigation, the CodeMirror wait
(its timeout modelled by an empty container list), the injection with
its two fallbacks, then the save stage. Errors returned here are the
exceptions the top-level handler will catch. -/
def deployBody (env : DeployEnv) (f : List String → List String) :
    Except String Bool × List DeployAct :=
  match env.gotoErr with
  | some e => (.error e, [DeployAct.gotoPage])
  | none =>
    if env.page.cmElems.isEmpty then
      if env.page.taPresent then
        ((saveStage env f).1, [DeployAct.gotoPage, DeployAct.fillTextarea] ++ (saveStage env f).2)
      else (.ok false, [DeployAct.gotoPage])
    else
      if (jsInject env.page).1.ok then
        ((saveStage env f).1,
         [DeployAct.gotoPage] ++ (jsInject env.page).2 ++ (saveStage env f).2)
      else
        if env.page.taPresent then
          ((saveStage env f).1,
           [DeployAct.gotoPage] ++ (jsInject env.page).2 ++ [DeployAct.fillTextarea]
             ++ (saveStage env f).2)
        else (.ok false, [DeployAct.gotoPage] ++ (jsInject env.page).2)

/-- deploy_app: the missing-file early return, browser launch, context
and page creation (both outside the try block, so their exceptions
escape), the guarded body whose exceptions the except clause converts
to False, and the finally clause closing the browser and refocusing the
editor application; the enclosing with block stops the driver on every
path that reaches the launch. -/
def deployApp (env : DeployEnv) (f : List String → List String) :
    Except String Bool × List DeployAct :=
  if env.fileExists then
    match env.ctxErr with
    | some e => (.error e, [DeployAct.browserLaunch, DeployAct.pwStop])
    | none =>
      match env.pageErr with
      | some e => (.error e, [DeployAct.browserLaunch, DeployAct.ctxCreate, DeployAct.pwStop])
      | none =>
        (.ok (match (deployBody env f).1 with
              | .ok b => b
              | .error _ => false),
         [DeployAct.browserLaunch, DeployAct.ctxCreate, DeployAct.pageCreate]
           ++ (deployBody env f).2
           ++ [DeployAct.browserClose, DeployAct.refocusCursor, DeployAct.pwStop])
  else (.ok false, [])

/-- Whether the injection step can place the code on the page: with no
container present the raw textarea must exist; with a container either
the injected script succeeds or the raw textarea fallback is available. -/
def injectionPossible (p : JSPage) : Bool :=
  if p.cmElems.isEmpty then p.taPresent
  else (jsInject p).1.ok || p.taPresent

/-- Whether the located save control is actually activated: a control
that becomes enabled must click normally, one that does not must accept
the script-level click. -/
def clickableSave (env : DeployEnv) : Bool :=
  match findSaveButton env.saveQueries with
  | none => false
  | some b => if b.enabledInWait then b.normalClickOk else b.jsClickOk

/-- Specification-side characterisation of a deploy run that completes
a verified save with no detected errors: the source file exists, no
driver call raises, the code can be injected, a save control is found
and activated, and the post-save scrape collects nothing. -/
def deploySucceedsChar (env : DeployEnv) (f : List String → List String) : Prop :=
  env.fileExists = true ∧ env.ctxErr = none ∧ env.pageErr = none ∧ env.gotoErr = none
    ∧ injectionPossible env.page = true ∧ clickableSave env = true
    ∧ uniqueErrors env f = []

/-- The hard-coded default hub address of the script. -/
def DEFAULT_HUB_IP : String := "192.168.2.108"

/-- Mutable state of the argument-parsing while loop. -/
structure PState where
  codePath : Option String
  appUrl : Option String
  headless : Bool
  autoDiscover : Bool
  hubIp : String
deriving DecidableEq

/-- Parser state before the first argument is examined. -/
def initPState : PState :=
  { codePath := none, appUrl := none, headless := false,
    autoDiscover := false, hubIp := DEFAULT_HUB_IP }

/-- Python truthiness test applied to an optional string variable
initialised to None: falsy when absent or empty. -/
def pyFalsy : Option String → Bool
  | none => true
  | some s => s = ""

/-- The tail of the elif chain for one argument that matched no flag
branch: an http or https prefix makes it the editor url, otherwise it
becomes the positional source path when none was seen yet. -/
def parseRest (a : String) (s : PState) : PState :=
  if startsWithS a "http://" || startsWithS a "https://" then { s with appUrl := some a }
  else if pyFalsy s.codePath then { s with codePath := some a }
  else s

/-- Transliteration of the argument-parsing while loop. The hub-ip
branch fires only when a following value exists (the index check
against the argument count); a final hub-ip flag instead falls through
to the url and positional checks of the same iteration, which parseRest
carries. -/
def parseLoop : List String → PState → PState
  | [], s => s
  | a :: rest, s =>
    if a = "--headless" then parseLoop rest { s with headless := true }
    else if a = "--auto" then parseLoop rest { s with autoDiscover := true }
    else if a = "--hub-ip" then
      match rest with
      | v :: rest2 => parseLoop rest2 { s with hubIp := v }
      | [] => parseRest a s
    else parseLoop rest (parseRest a s)

/-- Matching of the quoted capture group of the name-extraction
regexes: one quote of either kind, one or more non-quote characters
captured, then one closing quote of either kind. -/
def matchQuoted (cs : List Char) : Option String :=
  match cs with
  | [] => none
  | q :: rest =>
    if q = '"' || q = '\'' then
      if (rest.takeWhile (fun c => decide (c ≠ '"') && decide (c ≠ '\''))).isEmpty then none
      else
        match rest.drop (rest.takeWhile (fun c => decide (c ≠ '"') && decide (c ≠ '\''))).length with
        | [] => none
        | _ :: _ => some (rest.takeWhile (fun c => decide (c ≠ '"') && decide (c ≠ '\''))).asString
    else none

/-- One anchored attempt of the name-extraction regex: the app form
matches the literal name-colon then optional whitespace then the quoted
group; the driver form matches the literal name, optional whitespace,
an equals sign, optional whitespace, then the quoted group. -/
def tryNameAt (useEq : Bool) (cs : List Char) : Option String :=
  if useEq then
    if List.isPrefixOf "name".data cs then
      match (cs.drop 4).dropWhile isPySpace with
      | '=' :: r2 => matchQuoted (r2.dropWhile isPySpace)
      | _ => none
    else none
  else
    if List.isPrefixOf "name:".data cs then
      matchQuoted ((cs.drop 5).dropWhile isPySpace)
    else none

/-- re.search for the name-extraction regex: try every position left to
right and return the first capture. -/
def scanName (useEq : Bool) : List Char → Option String
  | [] => none
  | c :: rest =>
    match tryNameAt useEq (c :: rest) with
    | some s => some s
    | none => scanName useEq rest

/-- Index accumulation for the last dot of a char list. -/
def lastDotIdxGo : List Char → Nat → Option Nat → Option Nat
  | [], _, best => best
  | c :: rest, i, best => lastDotIdxGo rest (i + 1) (if c = '.' then some i else best)

/-- Index of the last dot of a char list, if any. -/
def lastDotIdx (cs : List Char) : Option Nat := lastDotIdxGo cs 0 none

/-- The final path component as pathlib yields it: the last non-empty
piece of the slash-separated path. -/
def lastSlashComp (p : String) : String :=
  ((splitChars (fun c => c = '/') p).filter (fun t => t ≠ "")).getLastD ""

/-- pathlib stem: the final component with its suffix removed, where a
suffix starts at a dot that is neither leading nor final. -/
def pyStem (p : String) : String :=
  match lastDotIdx (lastSlashComp p).data with
  | none => lastSlashComp p
  | some i =>
    if 0 < i ∧ i + 1 < (lastSlashComp p).data.length then
      ((lastSlashComp p).data.take i).asString
    else lastSlashComp p

/-- The two single-character replacements applied to the filename stem
in the fallback name extraction. -/
def dashToSpace (s : String) : String :=
  ((s.data.map (fun c => if c = '-' then ' ' else c)).map
    (fun c => if c = '_' then ' ' else c)).asString

/-- The component type and component name derived in the auto-discovery
branch: the app test, the regex extraction for the matching form, and
the filename-stem fallback. -/
def autoName (cp : String) (code : String) : String × String :=
  if substrS "definition(" code || substrS "name: \"" code then
    ("app",
     match scanName false code.data with
     | some n => n
     | none => dashToSpace (pyStem cp))
  else
    ("driver",
     match scanName true code.data with
     | some n => n
     | none => dashToSpace (pyStem cp))

/-- Environment of one whole process invocation: the argument vector
after the program name, the source file content read in the
auto-discovery branch, and the environments of the discovery page and
of the deploy run. -/
structure MainEnv where
  argv : List String
  codeContent : String
  findEnv : FindEnv
  deployEnv : DeployEnv

/-- The part of the main block before deploy_app is called: usage
check, argument parsing, the required-path check, the auto-discovery
branch with its early exits, and the required-url check. Returns the
editor url when control reaches the deploy_app call and nothing when
an earlier sys.exit(1) fires. -/
def mainResolve (env : MainEnv) : Option String :=
  match env.argv with
  | [] => none
  | _ :: _ =>
    if pyFalsy (parseLoop env.argv initPState).codePath then none
    else
      if (parseLoop env.argv initPState).autoDiscover
          && pyFalsy (parseLoop env.argv initPState).appUrl then
        if !env.deployEnv.fileExists then none
        else
          match findEditorId env.findEnv
              (autoName ((parseLoop env.argv initPState).codePath.getD "") env.codeContent).2
              (autoName ((parseLoop env.argv initPState).codePath.getD "") env.codeContent).1 with
          | some g =>
            some ("http://" ++ (parseLoop env.argv initPState).hubIp ++ "/"
              ++ (autoName ((parseLoop env.argv initPState).codePath.getD "") env.codeContent).1
              ++ "/editor/" ++ g)
          | none => none
      else
        if pyFalsy (parseLoop env.argv initPState).appUrl then none
        else (parseLoop env.argv initPState).appUrl

/-- The process exit code: one for every early exit of main, else the
deploy result mapped through sys.exit of zero-if-success; an exception
escaping deploy_app also terminates the interpreter with a non-zero
status, reported as one here. -/
def mainRun (env : MainEnv) (f : List String → List String) : Nat :=
  match mainResolve env with
  | none => 1
  | some _ =>
    match (deployApp env.deployEnv f).1 with
    | .ok true => 0
    | .ok false => 1
    | .error _ => 1

/-- Concrete listing page on which the discovery theorems are
evaluated: the editor link 123 sits next to the searched name. -/
def envListPage : FindEnv :=
  { gotoErr := none, contentErr := none, queryErr := none, loginShown := false,
    pageContent := "<tr><td><a href=/app/editor/123>Smart Shade Wrapper</a></td></tr>",
    elems := [] }

/-- Concrete discovery environment whose page navigation raises. -/
def envFindErr : FindEnv :=
  { gotoErr := some "net::ERR_CONNECTION_REFUSED", contentErr := none, queryErr := none,
    loginShown := false, pageContent := "", elems := [] }

/-- A page with no editor widget and no textarea. -/
def pageNone : JSPage := { cmElems := [], windowCM := false, taPresent := false }

/-- A page whose CodeMirror container exists but carries no resolvable
instance, with a raw textarea present. -/
def pageNoInstTA : JSPage :=
  { cmElems := [{ cmMain := none, cmAlt := none }], windowCM := false, taPresent := true }

/-- A page whose CodeMirror container exists but carries no resolvable
instance, and no raw textarea either. -/
def pageNoInstNoTA : JSPage :=
  { cmElems := [{ cmMain := none, cmAlt := none }], windowCM := false, taPresent := false }

/-- A page whose first container exposes a full CodeMirror instance. -/
def pageCMFull : JSPage :=
  { cmElems := [{ cmMain := some { hasTrigger := true, hasTextArea := true }, cmAlt := none }],
    windowCM := false, taPresent := true }

/-- A save button with visible text Save that enables and clicks. -/
def btnSaveOK : BtnElem :=
  { hasInner := true, innerTxt := "Save", valAttr := none, onclickAttr := none,
    enabledInWait := true, normalClickOk := true, jsClickOk := true }

/-- A save button with visible text Save that never becomes enabled but
accepts the script-level click. -/
def btnForce : BtnElem :=
  { hasInner := true, innerTxt := "Save", valAttr := none, onclickAttr := none,
    enabledInWait := false, normalClickOk := false, jsClickOk := true }

/-- Deploy environment with a missing source file. -/
def envNoFile : DeployEnv :=
  { fileExists := false, ctxErr := none, pageErr := none, gotoErr := none,
    loginShown := false, page := pageNone, saveQueries := [], warnQueries := [],
    bodyText := none }

/-- Deploy environment whose browser context creation raises. -/
def envCtxBoom : DeployEnv :=
  { fileExists := true, ctxErr := some "browser context creation failed", pageErr := none,
    gotoErr := none, loginShown := false, page := pageNone, saveQueries := [],
    warnQueries := [], bodyText := none }

/-- Deploy environment whose page navigation raises inside the guarded
region. -/
def envGotoBoom : DeployEnv :=
  { fileExists := true, ctxErr := none, pageErr := none, gotoErr := some "navigation timeout",
    loginShown := false, page := pageNone, saveQueries := [], warnQueries := [],
    bodyText := none }

/-- Deploy environment exercising the textarea fallback: container with
unresolvable instance, textarea present. -/
def envNoInstTA : DeployEnv :=
  { fileExists := true, ctxErr := none, pageErr := none, gotoErr := none,
    loginShown := false, page := pageNoInstTA, saveQueries := [], warnQueries := [],
    bodyText := none }

/-- Deploy environment with neither a resolvable widget instance nor a
raw textarea. -/
def envNoInstNoTA : DeployEnv :=
  { fileExists := true, ctxErr := none, pageErr := none, gotoErr := none,
    loginShown := false, page := pageNoInstNoTA, saveQueries := [], warnQueries := [],
    bodyText := none }

/-- Deploy environment whose save control needs the forced click. -/
def envForceClick : DeployEnv :=
  { fileExists := true, ctxErr := none, pageErr := none, gotoErr := none,
    loginShown := false, page := pageNoInstTA, saveQueries := [some [btnForce]],
    warnQueries := [], bodyText := none }

/-- Deploy environment that reaches the scrape and collects nothing. -/
def envScrapeClean : DeployEnv :=
  { fileExists := true, ctxErr := none, pageErr := none, gotoErr := none,
    loginShown := false, page := pageNoInstTA, saveQueries := [some [btnSaveOK]],
    warnQueries := [], bodyText := none }

/-- Deploy environment whose post-save page shows two distinct error
banners, giving a two-element extraction. -/
def envTwoErrors : DeployEnv :=
  { fileExists := true, ctxErr := none, pageErr := none, gotoErr := none,
    loginShown := false, page := pageNoInstTA, saveQueries := [some [btnSaveOK]],
    warnQueries := [some [{ innerTxt := "error A1" }, { innerTxt := "error B2" }]],
    bodyText := none }

theorem firstLoop_eq_findSome (name content : String) (ms : List MatchInfo) :
    firstLoop name content ms = ms.findSome? (fun m =>
      if substrS (lowerS name) (lowerS (ctxWindow content m)) then some m.gid else none) := by
  induction ms with
  | nil => rfl
  | cons m rest ih =>
    cases hc : substrS (lowerS name) (lowerS (ctxWindow content m)) <;>
      simp [firstLoop, List.findSome?_cons, hc, ih]

theorem secondLoop_eq_findSome (name ct : String) (els : List LElem) :
    secondLoop name ct els = stratB name ct els := by
  induction els with
  | nil => rfl
  | cons el rest ih =>
    unfold secondLoop stratB
    rw [List.findSome?_cons]
    cases hc : (substrS (lowerS name) (lowerS (if el.hasInner then el.innerTxt else ""))
        && substrS ("/" ++ ct ++ "/editor/") (el.hrefAttr.getD ""))
    · simpa [hc, stratB] using ih
    · simp only [hc, if_pos rfl]
      cases hs : hrefSearchId (el.hrefAttr.getD "")
      · simpa [hs, stratB] using ih
      · simp [hs]

/-- C4: the discovery operation applies exactly the two search
strategies in order: the regex-and-context-window strategy first and,
only when it yields nothing, the element-scanning strategy, returning
the first identifier the applicable strategy finds. -/
theorem discovery_two_strategies (env : FindEnv) (name ct : String)
    (h1 : env.gotoErr = none) (h2 : env.contentErr = none) (h3 : env.queryErr = none) :
    findEditorId env name ct =
      Option.orElse (stratA name ct env.pageContent) (fun _ => stratB name ct env.elems) := by
  unfold findEditorId findBody stratA
  rw [h1, h2, h3, ← firstLoop_eq_findSome, ← secondLoop_eq_findSome]
  cases hf : firstLoop name env.pageContent (finditerIds (editorLit ct) env.pageContent.data)
  · cases hs : secondLoop name ct env.elems <;> simp [Option.orElse]
  · simp [Option.orElse]

theorem discovery_two_strategies_w :
    findEditorId envListPage "shade" "app" =
      Option.orElse (stratA "shade" "app" envListPage.pageContent)
        (fun _ => stratB "shade" "app" envListPage.elems)
    ∧ findEditorId envListPage "shade" "app" = some "123" :=
  ⟨discovery_two_strategies envListPage "shade" "app" rfl rfl rfl, by decide⟩

/-- C5: any internal failure of the discovery body is converted by the
catch-all handler into the not-found result, so find_editor_id never
propagates an exception: it returns an identifier or None on every
environment. -/
theorem discovery_never_raises (env : FindEnv) (name ct : String) (e : String)
    (h : findBody env name ct = Except.error e) :
    findEditorId env name ct = none := by
  unfold findEditorId
  rw [h]

theorem discovery_never_raises_w :
    findBody envFindErr "x" "app" = Except.error "net::ERR_CONNECTION_REFUSED"
    ∧ findEditorId envFindErr "x" "app" = none :=
  ⟨rfl, discovery_never_raises envFindErr "x" "app" "net::ERR_CONNECTION_REFUSED" rfl⟩

theorem nodupSnoc {l : List String} {a : String} (h : l.Nodup) (ha : a ∉ l) :
    (l ++ [a]).Nodup :=
  (List.perm_append_singleton a l).nodup_iff.mpr (List.nodup_cons.mpr ⟨ha, h⟩)

theorem scanWarnElem_nodup {acc : List String} (h : acc.Nodup) (e : WarnElem) :
    (scanWarnElem acc e).Nodup := by
  unfold scanWarnElem
  split
  · split
    · split
      · exact h
      · rename_i hmem
        exact nodupSnoc h hmem
    · exact h
  · exact h

theorem scanLine_nodup {acc : List String} (h : acc.Nodup) (line : String) :
    (scanLine acc line).Nodup := by
  unfold scanLine
  split
  · split
    · split
      · rename_i hcond
        simp only [Bool.and_eq_true, decide_eq_true_eq] at hcond
        exact nodupSnoc h hcond.2
      · exact h
    · exact h
  · exact h

theorem foldl_scanWarnElem_nodup (es : List WarnElem) :
    ∀ acc : List String, acc.Nodup → (es.foldl scanWarnElem acc).Nodup := by
  induction es with
  | nil => intro acc h; exact h
  | cons e rest ih =>
    intro acc h
    rw [List.foldl_cons]
    exact ih _ (scanWarnElem_nodup h e)

theorem foldl_scanLine_nodup (ls : List String) :
    ∀ acc : List String, acc.Nodup → (ls.foldl scanLine acc).Nodup := by
  induction ls with
  | nil => intro acc h; exact h
  | cons ln rest ih =>
    intro acc h
    rw [List.foldl_cons]
    exact ih _ (scanLine_nodup h ln)

theorem scrapeWarn_nodup (qs : List (Option (List WarnElem))) :
    ∀ acc : List String, acc.Nodup → (scrapeWarn qs acc).Nodup := by
  induction qs with
  | nil => intro acc h; exact h
  | cons q rest ih =>
    intro acc h
    unfold scrapeWarn
    rw [List.foldl_cons]
    cases q with
    | none => exact ih acc h
    | some es => exact ih _ (foldl_scanWarnElem_nodup es acc h)

theorem scrapeBodyText_nodup (bt : Option String) (acc : List String) (h : acc.Nodup) :
    (scrapeBodyText bt acc).Nodup := by
  unfold scrapeBodyText
  cases bt with
  | none => exact h
  | some t =>
    by_cases ht : t = ""
    · simp only [if_pos ht]
      exact h
    · simp only [if_neg ht]
      exact foldl_scanLine_nodup _ acc h

theorem errorsFound_nodup (env : DeployEnv) : (errorsFound env).Nodup :=
  scrapeBodyText_nodup _ _ (scrapeWarn_nodup _ _ List.nodup_nil)

theorem saveStage_fst_reach (env : DeployEnv) (f : List String → List String)
    (h6 : clickableSave env = true) :
    (saveStage env f).1 = Except.ok (uniqueErrors env f).isEmpty := by
  unfold clickableSave at h6
  unfold saveStage
  cases hb : findSaveButton env.saveQueries with
  | none => simp [hb] at h6
  | some b =>
    simp only [hb] at h6 ⊢
    cases he : b.enabledInWait <;> simp [he] at h6 ⊢ <;> simp [h6]

theorem saveStage_ok_true_iff (env : DeployEnv) (f : List String → List String) :
    (saveStage env f).1 = Except.ok true ↔
      (clickableSave env = true ∧ uniqueErrors env f = []) := by
  unfold saveStage clickableSave
  cases hb : findSaveButton env.saveQueries with
  | none => simp
  | some b =>
    cases he : b.enabledInWait <;> cases hn : b.normalClickOk <;> cases hj : b.jsClickOk <;>
      simp [he, hn, hj, List.isEmpty_iff]

theorem deployBody_fst_eq_save (env : DeployEnv) (f : List String → List String)
    (h4 : env.gotoErr = none) (h5 : injectionPossible env.page = true) :
    (deployBody env f).1 = (saveStage env f).1 := by
  unfold injectionPossible at h5
  unfold deployBody
  rw [h4]
  cases hcm : env.page.cmElems.isEmpty <;> rw [hcm] at h5 <;>
    cases hta : env.page.taPresent <;> rw [hta] at h5
  · cases hjs : (jsInject env.page).1.ok <;> rw [hjs] at h5
    · exact absurd h5 (by simp)
    · simp [hcm, hjs]
  · cases hjs : (jsInject env.page).1.ok <;> simp [hcm, hjs, hta]
  · exact absurd h5 (by simp)
  · simp [hcm, hta]

theorem deployBody_ok_true_iff (env : DeployEnv) (f : List String → List String) :
    (deployBody env f).1 = Except.ok true ↔
      (env.gotoErr = none ∧ injectionPossible env.page = true
        ∧ clickableSave env = true ∧ uniqueErrors env f = []) := by
  cases hg : env.gotoErr with
  | some e =>
    unfold deployBody
    rw [hg]
    simp
  | none =>
    constructor
    · intro h
      refine ⟨rfl, ?_, ?_⟩
      · unfold deployBody at h
        rw [hg] at h
        unfold injectionPossible
        cases hcm : env.page.cmElems.isEmpty <;> rw [hcm] at h <;>
          cases hta : env.page.taPresent <;> rw [hta] at h
        · cases hjs : (jsInject env.page).1.ok <;> rw [hjs] at h
          · exact absurd h (by simp)
          · simp [hcm, hjs]
        · cases hjs : (jsInject env.page).1.ok <;> simp [hcm, hjs]
        · exact absurd h (by simp)
        · simp [hcm, hta]
      · have h5 : injectionPossible env.page = true := by
          unfold deployBody at h
          rw [hg] at h
          unfold injectionPossible
          cases hcm : env.page.cmElems.isEmpty <;> rw [hcm] at h <;>
            cases hta : env.page.taPresent <;> rw [hta] at h
          · cases hjs : (jsInject env.page).1.ok <;> rw [hjs] at h
            · exact absurd h (by simp)
            · simp [hcm, hjs]
          · cases hjs : (jsInject env.page).1.ok <;> simp [hcm, hjs]
          · exact absurd h (by simp)
          · simp [hcm, hta]
        rw [deployBody_fst_eq_save env f hg h5] at h
        exact (saveStage_ok_true_iff env f).mp h
    · rintro ⟨-, h5, h6, h7⟩
      rw [deployBody_fst_eq_save env f hg h5, saveStage_fst_reach env f h6, h7]
      rfl

theorem deployApp_fst_of_body (env : DeployEnv) (f : List String → List String)
    (h1 : env.fileExists = true) (h2 : env.ctxErr = none) (h3 : env.pageErr = none) :
    (deployApp env f).1 =
      Except.ok (match (deployBody env f).1 with
                 | .ok b => b
                 | .error _ => false) := by
  unfold deployApp
  rw [h1, h2, h3]
  simp

theorem deployApp_fst_ok_true_iff (env : DeployEnv) (f : List String → List String) :
    (deployApp env f).1 = Except.ok true ↔ deploySucceedsChar env f := by
  unfold deploySucceedsChar
  cases h1 : env.fileExists
  · unfold deployApp
    rw [h1]
    simp
  · cases h2 : env.ctxErr with
    | some e =>
      unfold deployApp
      rw [h1, h2]
      simp
    | none =>
      cases h3 : env.pageErr with
      | some e =>
        unfold deployApp
        rw [h1, h2, h3]
        simp
      | none =>
        rw [deployApp_fst_of_body env f h1 h2 h3]
        cases hb : (deployBody env f).1 with
        | ok b =>
          cases b <;>
            simp [← deployBody_ok_true_iff, hb, h2, h3]
        | error e =>
          simp [← deployBody_ok_true_iff, hb, h2, h3]

theorem deployApp_fst_reach (env : DeployEnv) (f : List String → List String)
    (h1 : env.fileExists = true) (h2 : env.ctxErr = none) (h3 : env.pageErr = none)
    (h4 : env.gotoErr = none) (h5 : injectionPossible env.page = true)
    (h6 : clickableSave env = true) :
    (deployApp env f).1 = Except.ok (uniqueErrors env f).isEmpty := by
  rw [deployApp_fst_of_body env f h1 h2 h3, deployBody_fst_eq_save env f h4 h5,
    saveStage_fst_reach env f h6]

theorem saveStage_trace_sub (env : DeployEnv) (f : List String → List String)
    (h4 : env.gotoErr = none) (h5 : injectionPossible env.page = true)
    {a : DeployAct} (ha : a ∈ (saveStage env f).2) :
    a ∈ (deployBody env f).2 := by
  unfold injectionPossible at h5
  unfold deployBody
  rw [h4]
  cases hcm : env.page.cmElems.isEmpty <;> rw [hcm] at h5 <;>
    cases hta : env.page.taPresent <;> rw [hta] at h5
  · cases hjs : (jsInject env.page).1.ok <;> rw [hjs] at h5
    · exact absurd h5 (by simp)
    · simp [hcm, hjs, List.mem_append, ha]
  · cases hjs : (jsInject env.page).1.ok <;> simp [hcm, hjs, List.mem_append, ha]
  · exact absurd h5 (by simp)
  · simp [hcm, hta, List.mem_append, ha]

theorem deployBody_trace_sub (env : DeployEnv) (f : List String → List String)
    (h1 : env.fileExists = true) (h2 : env.ctxErr = none) (h3 : env.pageErr = none)
    {a : DeployAct} (ha : a ∈ (deployBody env f).2) :
    a ∈ (deployApp env f).2 := by
  unfold deployApp
  rw [h1, h2, h3]
  simp [List.mem_append, ha]

/-- C1: the process exits with code zero exactly when the invocation
reaches deploy_app and that run completes a verified save with no
detected errors (source file present, no driver exception, an editor
widget or raw input available, a save control found and activated, and
an empty error scrape); every other invocation, including all the
enumerated failure modes, exits with code one. -/
theorem exit_code_zero_iff_verified_save (env : MainEnv) (f : List String → List String) :
    (mainRun env f = 0 ∨ mainRun env f = 1)
    ∧ (mainRun env f = 0 ↔
        ((mainResolve env).isSome ∧ deploySucceedsChar env.deployEnv f)) := by
  constructor
  · unfold mainRun
    cases hr : mainResolve env with
    | none => exact Or.inr rfl
    | some u =>
      cases hd : (deployApp env.deployEnv f).1 with
      | ok b => cases b <;> simp
      | error e => simp
  · unfold mainRun
    cases hr : mainResolve env with
    | none => simp [hr]
    | some u =>
      cases hd : (deployApp env.deployEnv f).1 with
      | ok b =>
        cases b <;> simp [hr, ← deployApp_fst_ok_true_iff, hd]
      | error e => simp [hr, ← deployApp_fst_ok_true_iff, hd]

/-- C2: with a missing source file deploy_app returns the failure
result and performs no browser operation: the browser is never
launched, no page is opened, and the action trace is empty. -/
theorem missing_file_skips_browser (env : DeployEnv) (f : List String → List String)
    (h : env.fileExists = false) :
    (deployApp env f).1 = Except.ok false
    ∧ DeployAct.browserLaunch ∉ (deployApp env f).2
    ∧ DeployAct.gotoPage ∉ (deployApp env f).2
    ∧ (deployApp env f).2 = [] := by
  unfold deployApp
  simp [h]

theorem missing_file_skips_browser_w :
    (deployApp envNoFile id).1 = Except.ok false
    ∧ DeployAct.browserLaunch ∉ (deployApp envNoFile id).2
    ∧ DeployAct.gotoPage ∉ (deployApp envNoFile id).2
    ∧ (deployApp envNoFile id).2 = [] :=
  missing_file_skips_browser envNoFile id rfl

/-- C3 (counterexample): the claim asserts that the final collection
preserves extraction order, but the source pipes the already
de-duplicated errors_found list through the list-of-set conversion,
whose iteration order Python does not specify; under the valid
set-order model that reverses its input, a page yielding the two
extracted errors in one order produces the final collection in the
opposite order. -/
theorem scrape_order_not_preserved_cex :
    SetOrderOK List.reverse
    ∧ errorsFound envTwoErrors = ["error A1", "error B2"]
    ∧ uniqueErrors envTwoErrors List.reverse = ["error B2", "error A1"]
    ∧ uniqueErrors envTwoErrors List.reverse ≠ errorsFound envTwoErrors := by
  refine ⟨fun l _ => List.reverse_perm l, ?_, ?_, ?_⟩ <;> decide

/-- C3 (amended): the error scrape produces a de-duplicated collection:
a string collected by both detections appears exactly once, membership
in the final collection coincides with membership in the ordered
extraction, and on a run reaching the scrape the deploy result is
success exactly when the collection is empty and failure exactly when
it is not; the order of the final collection, however, is whatever the
unordered set conversion yields and need not be the extraction order. -/
theorem scrape_dedup_and_verdict (env : DeployEnv) (f : List String → List String)
    (hf : SetOrderOK f)
    (h1 : env.fileExists = true) (h2 : env.ctxErr = none) (h3 : env.pageErr = none)
    (h4 : env.gotoErr = none) (h5 : injectionPossible env.page = true)
    (h6 : clickableSave env = true) :
    (uniqueErrors env f).Nodup
    ∧ (∀ s, s ∈ uniqueErrors env f ↔ s ∈ errorsFound env)
    ∧ ((deployApp env f).1 = Except.ok true ↔ uniqueErrors env f = [])
    ∧ ((deployApp env f).1 = Except.ok false ↔ uniqueErrors env f ≠ []) := by
  have hperm := hf (errorsFound env) (errorsFound_nodup env)
  have hreach := deployApp_fst_reach env f h1 h2 h3 h4 h5 h6
  refine ⟨hperm.nodup_iff.mpr (errorsFound_nodup env), fun s => hperm.mem_iff, ?_, ?_⟩
  · rw [hreach]
    cases hu : uniqueErrors env f <;> simp
  · rw [hreach]
    cases hu : uniqueErrors env f <;> simp

theorem scrape_dedup_and_verdict_w :
    (uniqueErrors envScrapeClean id).Nodup
    ∧ (∀ s, s ∈ uniqueErrors envScrapeClean id ↔ s ∈ errorsFound envScrapeClean)
    ∧ ((deployApp envScrapeClean id).1 = Except.ok true ↔ uniqueErrors envScrapeClean id = [])
    ∧ ((deployApp envScrapeClean id).1 = Except.ok false ↔ uniqueErrors envScrapeClean id ≠ []) :=
  scrape_dedup_and_verdict envScrapeClean id (fun l _ => List.Perm.refl l)
    rfl rfl rfl rfl (by decide) (by decide)

/-- C6: when the widget instance cannot be resolved, the injected
script falls back to writing the source text into the raw textarea and
dispatching input and change notifications on it; when neither a
resolvable widget instance nor a raw textarea exists, the deploy
operation returns the failure result. -/
theorem injection_fallback (env : DeployEnv) (f : List String → List String)
    (hres : resolveCM env.page = none) :
    (env.page.cmElems ≠ [] → env.page.taPresent = true →
      (jsInject env.page).1.ok = true
      ∧ (jsInject env.page).1.method = some InjMethod.taMethod
      ∧ (jsInject env.page).2 =
          [DeployAct.taSetValue, DeployAct.dispatchEvent "input",
           DeployAct.dispatchEvent "change"])
    ∧ (env.page.taPresent = false → env.fileExists = true → env.ctxErr = none →
        env.pageErr = none → env.gotoErr = none →
        (deployApp env f).1 = Except.ok false) := by
  constructor
  · intro hne hta
    have hcm : env.page.cmElems.isEmpty = false := by
      cases hc : env.page.cmElems
      · exact absurd hc hne
      · rfl
    unfold jsInject
    simp [hcm, hres, hta]
  · intro hta h1 h2 h3 h4
    rw [deployApp_fst_of_body env f h1 h2 h3]
    unfold deployBody
    rw [h4]
    cases hcm : env.page.cmElems.isEmpty
    · have hjs : (jsInject env.page).1.ok = false := by
        unfold jsInject
        simp [hcm, hres, hta]
      simp [hcm, hjs, hta]
    · simp [hcm, hta]

theorem injection_fallback_w :
    ((jsInject pageNoInstTA).1.ok = true
      ∧ (jsInject pageNoInstTA).1.method = some InjMethod.taMethod
      ∧ (jsInject pageNoInstTA).2 =
          [DeployAct.taSetValue, DeployAct.dispatchEvent "input",
           DeployAct.dispatchEvent "change"])
    ∧ (deployApp envNoInstNoTA id).1 = Except.ok false :=
  ⟨(injection_fallback envNoInstTA id rfl).1 (by decide) rfl,
   (injection_fallback envNoInstNoTA id rfl).2 rfl rfl rfl rfl rfl⟩

/-- C7 (counterexample): with a resolved widget instance the script
dispatches input, change and keyup on the underlying raw input; no
keypress notification is synthesized anywhere in the injection,
refuting the keypress part of the claim. -/
theorem cm_keypress_not_dispatched_cex :
    (jsInject pageCMFull).1.ok = true
    ∧ (jsInject pageCMFull).1.method = some InjMethod.cmMethod
    ∧ (jsInject pageCMFull).2 =
        [DeployAct.cmSetValue, DeployAct.cmTriggerChange, DeployAct.dispatchEvent "input",
         DeployAct.dispatchEvent "change", DeployAct.dispatchEvent "keyup"]
    ∧ DeployAct.dispatchEvent "keypress" ∉ (jsInject pageCMFull).2 := by
  refine ⟨rfl, rfl, rfl, ?_⟩
  decide

/-- C7 (amended): when the widget instance resolves, injection invokes
the widget content replacement, fires the widget change trigger when
the instance exposes one, and then synthesizes input, change and keyup
(not keypress) notifications on the underlying raw input element when
the widget exposes one. -/
theorem cm_injection_events (p : JSPage) (cm : CMInst)
    (hres : resolveCM p = some cm) :
    (jsInject p).1.ok = true
    ∧ (jsInject p).1.method = some InjMethod.cmMethod
    ∧ (jsInject p).2 =
        [DeployAct.cmSetValue]
          ++ (if cm.hasTrigger then [DeployAct.cmTriggerChange] else [])
          ++ (if cm.hasTextArea then
                [DeployAct.dispatchEvent "input", DeployAct.dispatchEvent "change",
                 DeployAct.dispatchEvent "keyup"]
              else []) := by
  have hcm : p.cmElems.isEmpty = false := by
    cases hc : p.cmElems
    · unfold resolveCM at hres
      simp [hc] at hres
    · rfl
  unfold jsInject
  simp [hcm, hres]

theorem cm_injection_events_w :
    (jsInject pageCMFull).1.ok = true
    ∧ (jsInject pageCMFull).1.method = some InjMethod.cmMethod
    ∧ (jsInject pageCMFull).2 =
        [DeployAct.cmSetValue]
          ++ (if (⟨true, true⟩ : CMInst).hasTrigger then [DeployAct.cmTriggerChange] else [])
          ++ (if (⟨true, true⟩ : CMInst).hasTextArea then
                [DeployAct.dispatchEvent "input", DeployAct.dispatchEvent "change",
                 DeployAct.dispatchEvent "keyup"]
              else []) :=
  cm_injection_events pageCMFull ⟨true, true⟩ rfl

/-- C8: on a run reaching the save stage whose control never becomes
interactive within the wait window, the forced script-level click is
still attempted; if it fails the operation gives up with the failure
result, and if it succeeds the run proceeds to the scrape whose verdict
decides the result, so the save stage abandons the run only when the
forced click also fails. -/
theorem forced_click_fallback (env : DeployEnv) (f : List String → List String) (b : BtnElem)
    (h1 : env.fileExists = true) (h2 : env.ctxErr = none) (h3 : env.pageErr = none)
    (h4 : env.gotoErr = none) (h5 : injectionPossible env.page = true)
    (hb : findSaveButton env.saveQueries = some b)
    (he : b.enabledInWait = false) :
    DeployAct.jsClickAttempt ∈ (deployApp env f).2
    ∧ (b.jsClickOk = false → (deployApp env f).1 = Except.ok false)
    ∧ (b.jsClickOk = true →
        (deployApp env f).1 = Except.ok (uniqueErrors env f).isEmpty) := by
  have hmem : DeployAct.jsClickAttempt ∈ (saveStage env f).2 := by
    unfold saveStage
    simp only [hb]
    cases hj : b.jsClickOk <;> simp [he, hj]
  refine ⟨deployBody_trace_sub env f h1 h2 h3 (saveStage_trace_sub env f h4 h5 hmem), ?_, ?_⟩
  · intro hj
    have hsv : (saveStage env f).1 = Except.error "element state wait timeout" := by
      unfold saveStage
      simp only [hb]
      simp [he, hj]
    rw [deployApp_fst_of_body env f h1 h2 h3, deployBody_fst_eq_save env f h4 h5, hsv]
  · intro hj
    have h6 : clickableSave env = true := by
      unfold clickableSave
      simp only [hb]
      simp [he, hj]
    exact deployApp_fst_reach env f h1 h2 h3 h4 h5 h6

theorem forced_click_fallback_w :
    DeployAct.jsClickAttempt ∈ (deployApp envForceClick id).2
    ∧ (btnForce.jsClickOk = false → (deployApp envForceClick id).1 = Except.ok false)
    ∧ (btnForce.jsClickOk = true →
        (deployApp envForceClick id).1 = Except.ok (uniqueErrors envForceClick id).isEmpty) :=
  forced_click_fallback envForceClick id btnForce rfl rfl rfl rfl (by decide) (by decide) rfl

/-- C9 (counterexample): an exception thrown while creating the browser
context, after the browser is launched, propagates out of deploy_app
instead of being caught and converted to a failed result, and the
finally clause that closes the browser never runs (only the enclosing
session manager stop happens), refuting the claim for the paths between
browser acquisition and the try block. -/
theorem ctx_exception_escapes_cex :
    (deployApp envCtxBoom id).1 = Except.error "browser context creation failed"
    ∧ (deployApp envCtxBoom id).1 ≠ Except.ok false
    ∧ DeployAct.browserLaunch ∈ (deployApp envCtxBoom id).2
    ∧ DeployAct.browserClose ∉ (deployApp envCtxBoom id).2 := by
  have h0 : (deployApp envCtxBoom id).1 = Except.error "browser context creation failed" := rfl
  refine ⟨h0, ?_, ?_, ?_⟩
  · rw [h0]
    intro hc
    exact Except.noConfusion hc
  · decide
  · decide

/-- C9 (amended): once the guarded region is reached (context and page
creation succeeded), every exception raised along the body is caught at
the top level and converted to the failed result, and the finally
clause closes the browser before the operation returns; the driver
stop of the enclosing with block runs on every path that launched the
browser, but an exception during context or page creation itself
escapes without being converted and without the explicit close. -/
theorem teardown_guarded_region (env : DeployEnv) (f : List String → List String)
    (h1 : env.fileExists = true) :
    DeployAct.pwStop ∈ (deployApp env f).2
    ∧ (env.ctxErr = none → env.pageErr = none →
        ((∃ b, (deployApp env f).1 = Except.ok b)
          ∧ DeployAct.browserClose ∈ (deployApp env f).2
          ∧ (∀ e, (deployBody env f).1 = Except.error e →
              (deployApp env f).1 = Except.ok false))) := by
  constructor
  · unfold deployApp
    rw [h1]
    cases h2 : env.ctxErr with
    | some e => simp
    | none =>
      cases h3 : env.pageErr with
      | some e => simp
      | none => simp
  · intro h2 h3
    refine ⟨⟨_, deployApp_fst_of_body env f h1 h2 h3⟩, ?_, ?_⟩
    · unfold deployApp
      rw [h1, h2, h3]
      simp
    · intro e he
      rw [deployApp_fst_of_body env f h1 h2 h3, he]

theorem teardown_guarded_region_w :
    DeployAct.pwStop ∈ (deployApp envGotoBoom id).2
    ∧ (envGotoBoom.ctxErr = none → envGotoBoom.pageErr = none →
        ((∃ b, (deployApp envGotoBoom id).1 = Except.ok b)
          ∧ DeployAct.browserClose ∈ (deployApp envGotoBoom id).2
          ∧ (∀ e, (deployBody envGotoBoom id).1 = Except.error e →
              (deployApp envGotoBoom id).1 = Except.ok false))) :=
  teardown_guarded_region envGotoBoom id rfl

/-- C10: when the parser reaches a trailing hub-ip flag with no value
after it while no source path has been seen, the flag is not reported
as malformed (the parser has no malformed-flag error path at all): it
falls through the flag checks and is consumed as the positional source
path, leaving the hub address unchanged. -/
theorem hub_ip_final_arg_positional (s : PState) (h : pyFalsy s.codePath = true) :
    parseLoop ["--hub-ip"] s = { s with codePath := some "--hub-ip" } := by
  have e1 : ¬ (("--hub-ip" : String) = "--headless") := by decide
  have e2 : ¬ (("--hub-ip" : String) = "--auto") := by decide
  have e4 : startsWithS "--hub-ip" "http://" = false := by decide
  have e5 : startsWithS "--hub-ip" "https://" = false := by decide
  simp [parseLoop, parseRest, e1, e2, e4, e5, h]

theorem hub_ip_final_arg_positional_w :
    parseLoop ["--hub-ip"] initPState = { initPState with codePath := some "--hub-ip" }
    ∧ (parseLoop ["--hub-ip"] initPState).hubIp = DEFAULT_HUB_IP
    ∧ (parseLoop ["--hub-ip"] initPState).codePath = some "--hub-ip" :=
  ⟨hub_ip_final_arg_positional initPState rfl, by decide, by decide⟩
